import Mathlib

/-!
# fairyring: `SendKeyshare` and `parseKeyShareCommitment`

A shallow embedding of `x/fairyring/keeper/msg_server_send_keyshare.go`.

* Go strings are Lean strings; byte slices are lists of naturals below 256.
* `uint64` message fields are naturals; the `uint32(...)` conversion of the
  share index is `% 2 ^ 32`, the `uint64(...)` conversion of the signed context
  values is `% 2 ^ 64`.
* The pairing suite, `distIBE.VerifyShare` and `distIBE.AggregateSK` belong to
  external libraries; they are the fields of `Suite`, over which every
  definition is parametric.
* The keeper's stores are explicit state: `SendKeyshare` maps a state to a
  result and a new state; log lines and events are appended to the state.
-/

set_option autoImplicit false
set_option linter.dupNamespace false

deriving instance DecidableEq for Except

namespace Fairyring

/-! ## `encoding/hex` -/

/-- Errors of Go `hex.DecodeString`: an invalid byte, or an odd length. -/
inductive HexError where
  | InvalidByteError (c : Char)
  | ErrLength
  deriving DecidableEq, Repr

/-- Value of one hexadecimal digit (`reverseHexTable`), `none` for any other character. -/
def fromHexChar (c : Char) : Option Nat :=
  if '0' ≤ c ∧ c ≤ '9' then some (c.toNat - 48)
  else if 'a' ≤ c ∧ c ≤ 'f' then some (c.toNat - 87)
  else if 'A' ≤ c ∧ c ≤ 'F' then some (c.toNat - 55)
  else none

/-- Go `hex.Decode`: pairs of digits from the left; the first bad character is
reported, a dangling last digit gives `ErrLength`. -/
def hexDecode : List Char → Except HexError (List Nat)
  | [] => .ok []
  | [p] =>
    match fromHexChar p with
    | none => .error (.InvalidByteError p)
    | some _ => .error .ErrLength
  | p :: q :: rest =>
    match fromHexChar p with
    | none => .error (.InvalidByteError p)
    | some a =>
      match fromHexChar q with
      | none => .error (.InvalidByteError q)
      | some b =>
        match hexDecode rest with
        | .error e => .error e
        | .ok bs => .ok ((a * 16 + b) :: bs)

/-- Go `hex.DecodeString`. -/
def hexDecodeString (s : String) : Except HexError (List Nat) :=
  hexDecode s.toList

/-- A string is valid hex when it has an even number of characters, all of
them hexadecimal digits (the wording of the specification, independent of the decoder). -/
def validHex (s : String) : Prop :=
  s.toList.length % 2 = 0 ∧ ∀ c ∈ s.toList, (fromHexChar c).isSome = true

instance (s : String) : Decidable (validHex s) := by
  unfold validHex
  infer_instance

/-! ## Types of the `types` and `distIBE` packages -/

/-- Registered errors of the module that this handler returns, with the text they wrap. -/
inductive Err where
  | ErrValidatorNotRegistered (creator : String)
  | ErrDecodingKeyShare (cause : HexError)
  | ErrUnmarshallingKeyShare (cause : String)
  | ErrDecodingCommitment (cause : HexError)
  | ErrUnmarshallingCommitment (cause : String)
  | ErrUnableToVerifyShare
  | ErrInvalidShare
  deriving DecidableEq, Repr

/-- The malformed-encoding error kind: one of the two hex decoding errors. -/
def Err.isMalformedEncoding : Err → Bool
  | .ErrDecodingKeyShare _ => true
  | .ErrDecodingCommitment _ => true
  | _ => false

/-- Go `distIBE.ExtractedKey`: a point of G2 and its share index. -/
structure ExtractedKey (G2 : Type) where
  Sk : G2
  Index : Nat
  deriving DecidableEq, Repr

/-- Go `distIBE.Commitment`: a point of G1 and its share index. -/
structure Commitment (G1 : Type) where
  Sp : G1
  Index : Nat
  deriving DecidableEq, Repr

/-- The external cryptographic collaborators of the handler: point decoding of
the pairing suite, the `kyber.HashablePoint` assertion on G2 (absent when the
assertion fails), `distIBE.VerifyShare`, `distIBE.AggregateSK`, and the
constant `types.IBEId`. -/
structure Suite (G1 G2 : Type) where
  unmarshalG2 : List Nat → Except String G2
  unmarshalG1 : List Nat → Except String G1
  hashG2 : Option (String → G2)
  VerifyShare : Commitment G1 → ExtractedKey G2 → G2 → Bool
  AggregateSK : List (ExtractedKey G2) → List (Commitment G1) → String → G2 × List Nat
  IBEId : String

/-- Go `types.MsgSendKeyshare`. -/
structure MsgSendKeyshare where
  Creator : String
  Message : String
  Commitment : String
  KeyShareIndex : Nat
  BlockHeight : Nat
  deriving DecidableEq, Repr

/-- Go `types.MsgSendKeyshareResponse`. -/
structure MsgSendKeyshareResponse where
  Creator : String
  Keyshare : String
  Commitment : String
  KeyshareIndex : Nat
  ReceivedBlockHeight : Nat
  BlockHeight : Nat
  deriving DecidableEq, Repr

/-- Go `types.KeyShare`, the record persisted per validator and height. -/
structure KeyShare where
  Validator : String
  BlockHeight : Nat
  KeyShare : String
  Commitment : String
  KeyShareIndex : Nat
  ReceivedTimestamp : Nat
  ReceivedBlockHeight : Nat
  deriving DecidableEq, Repr

/-- Modelled from the spec: the registry entry `types.ValidatorSet`, whose
declaration is not part of the sources; the handler reads its `Validator` field only. -/
structure ValidatorSet where
  Validator : String
  deriving DecidableEq, Repr

/-- Modelled from the spec: `types.AggregatedKeyShare`, the AggregatedKey
`{ height, key_material }`; the tests build it from `Height` alone. -/
structure AggregatedKeyShare where
  Height : Nat
  Data : String
  deriving DecidableEq, Repr

/-- The event emitted on acceptance, one field per attribute. -/
structure SendKeyshareEvent where
  Validator : String
  KeyshareBlockHeight : String
  ReceivedBlockHeight : String
  Message : String
  Commitment : String
  Index : String
  deriving DecidableEq, Repr

/-- Lines written to the keeper's logger: an error, or the aggregated decryption key. -/
inductive LogLine (G2 : Type) where
  | Error (err : Err)
  | AggregatedDecryptionKey (SK : G2)
  deriving DecidableEq, Repr

/-- The part of `sdk.Context` the handler reads: block height and block time (Unix seconds). -/
structure Context where
  BlockHeight : Int
  BlockTimeUnix : Int
  deriving DecidableEq, Repr

/-- Keeper state: the validator registry in iteration order, the Share Store,
the aggregated key shares, and the log lines and events produced so far. -/
structure State (G2 : Type) where
  validatorSet : List ValidatorSet
  keyShares : List KeyShare
  aggregatedKeyShares : List AggregatedKeyShare
  logs : List (LogLine G2)
  events : List SendKeyshareEvent
  deriving DecidableEq, Repr

/-- Go conversion `uint64(x)` of a signed 64-bit value. -/
def toUint64 (x : Int) : Nat := (x % 18446744073709551616).toNat

/-- Go conversion `uint32(x)` of an unsigned 64-bit value. -/
def toUint32 (x : Nat) : Nat := x % 4294967296

/-! ## Keeper accessors (not part of the sources) -/

section Keeper

variable {G1 G2 : Type}

/-- Modelled from the spec: registry lookup `is_registered(id)`, the keeper's `GetValidatorSet`. -/
def GetValidatorSet (s : State G2) (index : String) : Option ValidatorSet :=
  s.validatorSet.find? (fun v => decide (v.Validator = index))

/-- Modelled from the spec: `all_validators()`, the keeper's `GetAllValidatorSet`. -/
def GetAllValidatorSet (s : State G2) : List ValidatorSet :=
  s.validatorSet

/-- Whether a record is the one kept for `(validator, blockHeight)`. -/
def keyShareAt (validator : String) (blockHeight : Nat) (r : KeyShare) : Bool :=
  decide (r.Validator = validator) && decide (r.BlockHeight = blockHeight)

/-- Modelled from the spec: Share Store `get(validator_id, height)`, the keeper's `GetKeyShare`. -/
def GetKeyShare (s : State G2) (validator : String) (blockHeight : Nat) : Option KeyShare :=
  s.keyShares.find? (keyShareAt validator blockHeight)

/-- Modelled from the spec: Share Store `put`, the keeper's `SetKeyShare`: one
record per `(validator, height)`, a second write replaces the first. -/
def SetKeyShare (s : State G2) (keyShare : KeyShare) : State G2 :=
  let others := s.keyShares.filter
    (fun r => not (keyShareAt keyShare.Validator keyShare.BlockHeight r))
  { s with keyShares := keyShare :: others }

/-- Go `parseKeyShareCommitment`: decode and unmarshal the share, decode and
unmarshal the commitment, then verify the pair against the hash of `IBEId`. -/
def parseKeyShareCommitment (suite : Suite G1 G2) (keyShareHex commitmentHex : String)
    (index : Nat) : Except Err (ExtractedKey G2 × Commitment G1) :=
  match hexDecodeString keyShareHex with
  | .error err => .error (.ErrDecodingKeyShare err)
  | .ok newByteKey =>
    match suite.unmarshalG2 newByteKey with
    | .error err => .error (.ErrUnmarshallingKeyShare err)
    | .ok newSharePoint =>
      match hexDecodeString commitmentHex with
      | .error err => .error (.ErrDecodingCommitment err)
      | .ok newByteCommitment =>
        match suite.unmarshalG1 newByteCommitment with
        | .error err => .error (.ErrUnmarshallingCommitment err)
        | .ok newCommitmentPoint =>
          let newExtractedKey : ExtractedKey G2 := { Sk := newSharePoint, Index := index }
          let newCommitment : Commitment G1 := { Sp := newCommitmentPoint, Index := index }
          match suite.hashG2 with
          | none => .error .ErrUnableToVerifyShare
          | some hash =>
            let Qid := hash suite.IBEId
            if suite.VerifyShare newCommitment newExtractedKey Qid then
              .ok (newExtractedKey, newCommitment)
            else
              .error .ErrInvalidShare

/-! ## `SendKeyshare` -/

/-- The variables the loop over the validators updates. -/
structure Gathered (G1 G2 : Type) where
  listOfShares : List (ExtractedKey G2)
  listOfCommitment : List (Commitment G1)
  logs : List (LogLine G2)

/-- One iteration of the loop of `SendKeyshare` over `validatorList`: a
validator without a record is passed over, a record that does not parse is
logged and passed over, a record that parses is appended to both lists. -/
def gatherStep (suite : Suite G1 G2) (s : State G2) (blockHeight : Nat)
    (acc : Gathered G1 G2) (eachValidator : ValidatorSet) : Gathered G1 G2 :=
  match GetKeyShare s eachValidator.Validator blockHeight with
  | none => acc
  | some eachKeyShare =>
    match parseKeyShareCommitment suite eachKeyShare.KeyShare eachKeyShare.Commitment
        (toUint32 eachKeyShare.KeyShareIndex) with
    | .error err => { acc with logs := acc.logs ++ [LogLine.Error err] }
    | .ok (keyShare, commitment) =>
      { acc with
        listOfShares := acc.listOfShares ++ [keyShare]
        listOfCommitment := acc.listOfCommitment ++ [commitment] }

/-- The lists handed to `AggregateSK` by `SendKeyshare`, and the log after the
loop: the submitted pair first, then the loop over `GetAllValidatorSet`. -/
def gatherShares (suite : Suite G1 G2) (s : State G2) (blockHeight : Nat)
    (extractedKey : ExtractedKey G2) (commitment : Commitment G1) : Gathered G1 G2 :=
  (GetAllValidatorSet s).foldl (gatherStep suite s blockHeight)
    { listOfShares := [extractedKey], listOfCommitment := [commitment], logs := s.logs }

/-- The record `SendKeyshare` persists for a message in a context. -/
def newKeyShare (ctx : Context) (msg : MsgSendKeyshare) : KeyShare :=
  { Validator := msg.Creator
    BlockHeight := msg.BlockHeight
    KeyShare := msg.Message
    Commitment := msg.Commitment
    KeyShareIndex := msg.KeyShareIndex
    ReceivedTimestamp := toUint64 ctx.BlockTimeUnix
    ReceivedBlockHeight := toUint64 ctx.BlockHeight }

/-- The event `SendKeyshare` emits for a message in a context. -/
def newEvent (ctx : Context) (msg : MsgSendKeyshare) : SendKeyshareEvent :=
  { Validator := msg.Creator
    KeyshareBlockHeight := toString msg.BlockHeight
    ReceivedBlockHeight := toString ctx.BlockHeight
    Message := msg.Message
    Commitment := msg.Commitment
    Index := toString msg.KeyShareIndex }

/-- The response `SendKeyshare` returns for a message in a context. -/
def newResponse (ctx : Context) (msg : MsgSendKeyshare) : MsgSendKeyshareResponse :=
  { Creator := msg.Creator
    Keyshare := msg.Message
    Commitment := msg.Commitment
    KeyshareIndex := msg.KeyShareIndex
    ReceivedBlockHeight := toUint64 ctx.BlockHeight
    BlockHeight := msg.BlockHeight }

/-- Go `msgServer.SendKeyshare`: registration check, parse of the submitted
share, loop over the stored shares of the validators, `SetKeyShare`, the
guarded `AggregateSK` call whose key is logged, the event, the response. -/
def SendKeyshare (suite : Suite G1 G2) (s : State G2) (ctx : Context) (msg : MsgSendKeyshare) :
    Except Err MsgSendKeyshareResponse × State G2 :=
  match GetValidatorSet s msg.Creator with
  | none => (.error (.ErrValidatorNotRegistered msg.Creator), s)
  | some _ =>
    match parseKeyShareCommitment suite msg.Message msg.Commitment
        (toUint32 msg.KeyShareIndex) with
    | .error err => (.error err, s)
    | .ok (extractedKey, commitment) =>
      let g := gatherShares suite s msg.BlockHeight extractedKey commitment
      let s1 := SetKeyShare { s with logs := g.logs } (newKeyShare ctx msg)
      let s2 :=
        if g.listOfCommitment.length > 0 ∧ g.listOfShares.length > 0 then
          { s1 with logs := s1.logs ++
              [LogLine.AggregatedDecryptionKey
                (suite.AggregateSK g.listOfShares g.listOfCommitment suite.IBEId).1] }
        else s1
      (.ok (newResponse ctx msg), { s2 with events := s2.events ++ [newEvent ctx msg] })

/-! ## What a stored record contributes -/

/-- The pair contributed by the record stored for a validator at a height:
the decoded and verified share and commitment, when there is a record and it
passes `parseKeyShareCommitment`. -/
def storedPair (suite : Suite G1 G2) (s : State G2) (blockHeight : Nat) (v : ValidatorSet) :
    Option (ExtractedKey G2 × Commitment G1) :=
  (GetKeyShare s v.Validator blockHeight).bind fun r =>
    (parseKeyShareCommitment suite r.KeyShare r.Commitment (toUint32 r.KeyShareIndex)).toOption

/-- The error logged for the record stored for a validator at a height, when
there is a record and it fails `parseKeyShareCommitment`. -/
def storedError (suite : Suite G1 G2) (s : State G2) (blockHeight : Nat) (v : ValidatorSet) :
    Option Err :=
  (GetKeyShare s v.Validator blockHeight).bind fun r =>
    match parseKeyShareCommitment suite r.KeyShare r.Commitment (toUint32 r.KeyShareIndex) with
    | .error err => some err
    | .ok _ => none

end Keeper

/-! ## A small instance for concrete runs -/

/-- A stand-in for the pairing suite with the encoding lengths of BLS12-381:
96 bytes decode to a G2 point, 48 bytes to a G1 point, a share verifies when
the commitment is its first half, and the aggregate is the bytewise sum. -/
def testSuite : Suite (List Nat) (List Nat) where
  unmarshalG2 b := if b.length = 96 then .ok b else .error "invalid G2 encoding"
  unmarshalG1 b := if b.length = 48 then .ok b else .error "invalid G1 encoding"
  hashG2 := some (fun id => id.toList.map Char.toNat)
  VerifyShare c k _ := decide (c.Sp = k.Sk.take 48)
  AggregateSK shares _ _ :=
    (shares.foldl (fun acc k => List.zipWith (fun a b => a + b) acc k.Sk) (List.replicate 96 0), [])
  IBEId := "ibe"

/-- The 192-character hex string made of one digit. -/
def shareHex (d : Char) : String := String.mk (List.replicate 192 d)

/-- The 96-character hex string made of one digit. -/
def commitmentHex (d : Char) : String := String.mk (List.replicate 96 d)

/-- A context at block 5. -/
def ctx0 : Context := { BlockHeight := 5, BlockTimeUnix := 1700000000 }

/-- One registered validator, empty stores. -/
def st0 : State (List Nat) :=
  { validatorSet := [{ Validator := "val1" }], keyShares := [], aggregatedKeyShares := [],
    logs := [], events := [] }

/-- A valid submission of validator val1 for height 1. -/
def msgA : MsgSendKeyshare :=
  { Creator := "val1", Message := shareHex '1', Commitment := commitmentHex '1',
    KeyShareIndex := 1, BlockHeight := 1 }

/-- A submission of the unregistered address B, as in the tests. -/
def msgUnregistered : MsgSendKeyshare :=
  { Creator := "B", Message := "", Commitment := "", KeyShareIndex := 0, BlockHeight := 0 }

/-- A submission of val1 whose share decodes but does not match its commitment. -/
def msgMismatch : MsgSendKeyshare :=
  { Creator := "val1", Message := shareHex '1', Commitment := commitmentHex '2',
    KeyShareIndex := 1, BlockHeight := 1 }

/-- An earlier valid submission of val1 for height 1, carrying another share. -/
def msgOld : MsgSendKeyshare :=
  { Creator := "val1", Message := shareHex '3', Commitment := commitmentHex '3',
    KeyShareIndex := 1, BlockHeight := 1 }

/-- The share msgA decodes to. -/
def keyA : ExtractedKey (List Nat) := { Sk := List.replicate 96 17, Index := 1 }

/-- The commitment msgA decodes to. -/
def commitmentA : Commitment (List Nat) := { Sp := List.replicate 48 17, Index := 1 }

/-- The share msgOld decodes to. -/
def keyOld : ExtractedKey (List Nat) := { Sk := List.replicate 96 51, Index := 1 }

/-- The share stored for val2 decodes to this. -/
def keyB : ExtractedKey (List Nat) := { Sk := List.replicate 96 34, Index := 2 }

/-- The commitment stored for val2 decodes to this. -/
def commitmentB : Commitment (List Nat) := { Sp := List.replicate 48 34, Index := 2 }

/-- The state st0 after val1 has submitted msgA once. -/
def stOnce : State (List Nat) := (SendKeyshare testSuite st0 ctx0 msgA).2

/-- The state in which val1 has already stored msgOld for height 1. -/
def stPrior : State (List Nat) := (SendKeyshare testSuite st0 ctx0 msgOld).2

/-- Three validators; for height 1 the store holds a valid record of val2 and a
record of val3 whose share is not hex; val2 also has a record for height 2. -/
def st3 : State (List Nat) :=
  { validatorSet := [{ Validator := "val1" }, { Validator := "val2" }, { Validator := "val3" }]
    keyShares :=
      [{ Validator := "val2", BlockHeight := 1, KeyShare := shareHex '2',
         Commitment := commitmentHex '2', KeyShareIndex := 2,
         ReceivedTimestamp := 1699999990, ReceivedBlockHeight := 4 },
       { Validator := "val3", BlockHeight := 1, KeyShare := "zz",
         Commitment := commitmentHex '3', KeyShareIndex := 3,
         ReceivedTimestamp := 1699999990, ReceivedBlockHeight := 4 },
       { Validator := "val2", BlockHeight := 2, KeyShare := shareHex '4',
         Commitment := commitmentHex '4', KeyShareIndex := 2,
         ReceivedTimestamp := 1699999990, ReceivedBlockHeight := 4 }]
    aggregatedKeyShares := []
    logs := []
    events := [] }

/-- One registered validator, val1; for height 1 the store holds a record that
decodes and verifies, kept under val9, an address that is not in the validator set. -/
def stStray : State (List Nat) :=
  { validatorSet := [{ Validator := "val1" }]
    keyShares :=
      [{ Validator := "val9", BlockHeight := 1, KeyShare := shareHex '2',
         Commitment := commitmentHex '2', KeyShareIndex := 2,
         ReceivedTimestamp := 1699999990, ReceivedBlockHeight := 4 }]
    aggregatedKeyShares := []
    logs := []
    events := [] }

/-- Four validators; for height 1 the store holds a valid record of val2, a
record of val3 whose share is not hex, and a record of val4 that decodes but
whose share does not match its commitment. -/
def st4 : State (List Nat) :=
  { validatorSet :=
      [{ Validator := "val1" }, { Validator := "val2" }, { Validator := "val3" },
       { Validator := "val4" }]
    keyShares :=
      [{ Validator := "val2", BlockHeight := 1, KeyShare := shareHex '2',
         Commitment := commitmentHex '2', KeyShareIndex := 2,
         ReceivedTimestamp := 1699999990, ReceivedBlockHeight := 4 },
       { Validator := "val3", BlockHeight := 1, KeyShare := "zz",
         Commitment := commitmentHex '3', KeyShareIndex := 3,
         ReceivedTimestamp := 1699999990, ReceivedBlockHeight := 4 },
       { Validator := "val4", BlockHeight := 1, KeyShare := shareHex '5',
         Commitment := commitmentHex '6', KeyShareIndex := 4,
         ReceivedTimestamp := 1699999990, ReceivedBlockHeight := 4 }]
    aggregatedKeyShares := []
    logs := []
    events := [] }

/-! ## Lemmas on the keeper accessors -/

section Lemmas

variable {G1 G2 : Type}

theorem GetValidatorSet_eq_none {s : State G2} {index : String}
    (h : ∀ v ∈ s.validatorSet, v.Validator ≠ index) : GetValidatorSet s index = none := by
  unfold GetValidatorSet
  rw [List.find?_eq_none]
  intro v hv
  simpa using h v hv

theorem GetValidatorSet_isSome {s : State G2} {index : String}
    (h : ∃ v ∈ s.validatorSet, v.Validator = index) : ∃ v, GetValidatorSet s index = some v := by
  obtain ⟨v, hv, hvi⟩ := h
  cases hfind : GetValidatorSet s index with
  | some w => exact ⟨w, rfl⟩
  | none =>
    unfold GetValidatorSet at hfind
    rw [List.find?_eq_none] at hfind
    have := hfind v hv
    simp [hvi] at this

theorem GetValidatorSet_some_mem {s : State G2} {index : String} {v : ValidatorSet}
    (h : GetValidatorSet s index = some v) : v ∈ s.validatorSet ∧ v.Validator = index := by
  unfold GetValidatorSet at h
  refine ⟨List.mem_of_find?_eq_some h, ?_⟩
  simpa using List.find?_some h

theorem SendKeyshare_unregistered (suite : Suite G1 G2) (s : State G2) (ctx : Context)
    (msg : MsgSendKeyshare) (h : GetValidatorSet s msg.Creator = none) :
    SendKeyshare suite s ctx msg = (.error (.ErrValidatorNotRegistered msg.Creator), s) := by
  unfold SendKeyshare
  rw [h]

theorem SendKeyshare_rejected (suite : Suite G1 G2) (s : State G2) (ctx : Context)
    (msg : MsgSendKeyshare) {v : ValidatorSet} (hv : GetValidatorSet s msg.Creator = some v)
    {err : Err}
    (hp : parseKeyShareCommitment suite msg.Message msg.Commitment
      (toUint32 msg.KeyShareIndex) = .error err) :
    SendKeyshare suite s ctx msg = (.error err, s) := by
  unfold SendKeyshare
  rw [hv]
  simp only [hp]

theorem gatherStep_foldl (suite : Suite G1 G2) (s : State G2) (blockHeight : Nat)
    (vs : List ValidatorSet) (acc : Gathered G1 G2) :
    (vs.foldl (gatherStep suite s blockHeight) acc).listOfShares
        = acc.listOfShares ++ (vs.filterMap (storedPair suite s blockHeight)).map Prod.fst
    ∧ (vs.foldl (gatherStep suite s blockHeight) acc).listOfCommitment
        = acc.listOfCommitment ++ (vs.filterMap (storedPair suite s blockHeight)).map Prod.snd
    ∧ (vs.foldl (gatherStep suite s blockHeight) acc).logs
        = acc.logs ++ (vs.filterMap (storedError suite s blockHeight)).map LogLine.Error := by
  induction vs generalizing acc with
  | nil => simp
  | cons v vs ih =>
    rw [List.foldl_cons]
    obtain ⟨h1, h2, h3⟩ := ih (gatherStep suite s blockHeight acc v)
    rw [h1, h2, h3]
    unfold gatherStep storedPair storedError
    cases hg : GetKeyShare s v.Validator blockHeight with
    | none => simp [hg]
    | some r =>
      cases hp : parseKeyShareCommitment suite r.KeyShare r.Commitment
          (toUint32 r.KeyShareIndex) with
      | error err => simp [hg, hp, Except.toOption]
      | ok p =>
        obtain ⟨k, c⟩ := p
        simp [hg, hp, Except.toOption]

theorem gatherShares_eq (suite : Suite G1 G2) (s : State G2) (blockHeight : Nat)
    (k : ExtractedKey G2) (c : Commitment G1) :
    (gatherShares suite s blockHeight k c).listOfShares
        = k :: (s.validatorSet.filterMap (storedPair suite s blockHeight)).map Prod.fst
    ∧ (gatherShares suite s blockHeight k c).listOfCommitment
        = c :: (s.validatorSet.filterMap (storedPair suite s blockHeight)).map Prod.snd
    ∧ (gatherShares suite s blockHeight k c).logs
        = s.logs ++ (s.validatorSet.filterMap (storedError suite s blockHeight)).map
            LogLine.Error := by
  unfold gatherShares GetAllValidatorSet
  obtain ⟨h1, h2, h3⟩ := gatherStep_foldl suite s blockHeight s.validatorSet
    { listOfShares := [k], listOfCommitment := [c], logs := s.logs }
  exact ⟨by rw [h1]; rfl, by rw [h2]; rfl, h3⟩

theorem SendKeyshare_accepted (suite : Suite G1 G2) (s : State G2) (ctx : Context)
    (msg : MsgSendKeyshare) {v : ValidatorSet} (hv : GetValidatorSet s msg.Creator = some v)
    {k : ExtractedKey G2} {c : Commitment G1}
    (hp : parseKeyShareCommitment suite msg.Message msg.Commitment
      (toUint32 msg.KeyShareIndex) = .ok (k, c)) :
    SendKeyshare suite s ctx msg =
      (.ok (newResponse ctx msg),
        { validatorSet := s.validatorSet
          keyShares := newKeyShare ctx msg :: s.keyShares.filter
            (fun r => not (keyShareAt msg.Creator msg.BlockHeight r))
          aggregatedKeyShares := s.aggregatedKeyShares
          logs := (gatherShares suite s msg.BlockHeight k c).logs ++
            [LogLine.AggregatedDecryptionKey
              (suite.AggregateSK (gatherShares suite s msg.BlockHeight k c).listOfShares
                (gatherShares suite s msg.BlockHeight k c).listOfCommitment suite.IBEId).1]
          events := s.events ++ [newEvent ctx msg] }) := by
  obtain ⟨h1, h2, _⟩ := gatherShares_eq suite s msg.BlockHeight k c
  unfold SendKeyshare
  rw [hv]
  simp only [hp]
  rw [if_pos (by rw [h1, h2]; simp)]
  rfl

theorem parseKeyShareCommitment_ok_inv (suite : Suite G1 G2) (keyShareHex commitmentHex : String)
    (index : Nat) {k : ExtractedKey G2} {c : Commitment G1}
    (h : parseKeyShareCommitment suite keyShareHex commitmentHex index = .ok (k, c)) :
    k.Index = index ∧ c.Index = index ∧
      ∃ hash, suite.hashG2 = some hash ∧ suite.VerifyShare c k (hash suite.IBEId) = true := by
  unfold parseKeyShareCommitment at h
  split at h
  · cases h
  · split at h
    · cases h
    · split at h
      · cases h
      · split at h
        · cases h
        · split at h
          · cases h
          · rename_i hash hhash
            simp only at h
            split at h
            · rename_i hver
              simp only [Except.ok.injEq, Prod.mk.injEq] at h
              obtain ⟨hk, hc⟩ := h
              subst hk
              subst hc
              exact ⟨rfl, rfl, hash, hhash, hver⟩
            · cases h

theorem SendKeyshare_ok_inv (suite : Suite G1 G2) (s : State G2) (ctx : Context)
    (msg : MsgSendKeyshare) {resp : MsgSendKeyshareResponse}
    (h : (SendKeyshare suite s ctx msg).1 = .ok resp) :
    ∃ v k c, GetValidatorSet s msg.Creator = some v ∧
      parseKeyShareCommitment suite msg.Message msg.Commitment
        (toUint32 msg.KeyShareIndex) = .ok (k, c) := by
  cases hv : GetValidatorSet s msg.Creator with
  | none =>
    rw [SendKeyshare_unregistered suite s ctx msg hv] at h
    cases h
  | some v =>
    cases hp : parseKeyShareCommitment suite msg.Message msg.Commitment
        (toUint32 msg.KeyShareIndex) with
    | error err =>
      rw [SendKeyshare_rejected suite s ctx msg hv hp] at h
      cases h
    | ok p => exact ⟨v, p.1, p.2, rfl, rfl⟩

theorem keyShareAt_newKeyShare (ctx : Context) (msg : MsgSendKeyshare) :
    keyShareAt msg.Creator msg.BlockHeight (newKeyShare ctx msg) = true := by
  simp [keyShareAt, newKeyShare]

theorem keyShareAt_other {v : String} {h : Nat} {v' : String} {h' : Nat} {r : KeyShare}
    (hne : ¬ (v = v' ∧ h = h')) (hr : keyShareAt v h r = true) : keyShareAt v' h' r = false := by
  simp only [keyShareAt, Bool.and_eq_true, decide_eq_true_eq] at hr
  simp only [keyShareAt, Bool.and_eq_false_iff, decide_eq_false_iff_not]
  by_contra hcon
  push_neg at hcon
  exact hne ⟨hr.1.symm.trans hcon.1, hr.2.symm.trans hcon.2⟩

theorem SendKeyshare_ok_iff (suite : Suite G1 G2) (s : State G2) (ctx : Context)
    (msg : MsgSendKeyshare) :
    (∃ resp, (SendKeyshare suite s ctx msg).1 = .ok resp) ↔
      ((∃ v ∈ s.validatorSet, v.Validator = msg.Creator) ∧
        ∃ k c, parseKeyShareCommitment suite msg.Message msg.Commitment
          (toUint32 msg.KeyShareIndex) = .ok (k, c)) := by
  constructor
  · rintro ⟨resp, h⟩
    obtain ⟨v, k, c, hv, hp⟩ := SendKeyshare_ok_inv suite s ctx msg h
    obtain ⟨hmem, hval⟩ := GetValidatorSet_some_mem hv
    exact ⟨⟨v, hmem, hval⟩, k, c, hp⟩
  · rintro ⟨hreg, k, c, hp⟩
    obtain ⟨v, hv⟩ := GetValidatorSet_isSome hreg
    exact ⟨newResponse ctx msg, by rw [SendKeyshare_accepted suite s ctx msg hv hp]⟩

theorem filter_keyShareAt_set (ks : List KeyShare) (ctx : Context) (msg : MsgSendKeyshare) :
    (newKeyShare ctx msg :: ks.filter
        (fun r => not (keyShareAt msg.Creator msg.BlockHeight r))).filter
      (keyShareAt msg.Creator msg.BlockHeight) = [newKeyShare ctx msg] := by
  rw [List.filter_cons_of_pos (keyShareAt_newKeyShare ctx msg), List.filter_filter]
  simp

theorem filter_keyShareAt_other (ks : List KeyShare) (ctx : Context) (msg : MsgSendKeyshare)
    {v : String} {h : Nat} (hne : ¬ (v = msg.Creator ∧ h = msg.BlockHeight)) :
    (newKeyShare ctx msg :: ks.filter
        (fun r => not (keyShareAt msg.Creator msg.BlockHeight r))).filter (keyShareAt v h)
      = ks.filter (keyShareAt v h) := by
  have hnew : ¬ keyShareAt v h (newKeyShare ctx msg) = true := by
    intro hcon
    have : keyShareAt v h (newKeyShare ctx msg) = false :=
      keyShareAt_other (fun hh => hne ⟨hh.1.symm, hh.2.symm⟩) (keyShareAt_newKeyShare ctx msg)
    rw [hcon] at this
    cases this
  rw [List.filter_cons_of_neg hnew, List.filter_filter]
  apply List.filter_congr
  intro r _
  cases hr : keyShareAt v h r with
  | false => simp
  | true => simp [keyShareAt_other hne hr]

theorem find?_eq_head?_filter {α : Type} (p : α → Bool) (l : List α) :
    l.find? p = (l.filter p).head? := by
  induction l with
  | nil => rfl
  | cons a l ih =>
    rw [List.find?_cons, List.filter_cons]
    cases h : p a with
    | true => simp
    | false => simp

theorem hexDecode_ok_iff (l : List Char) :
    (∃ bs, hexDecode l = .ok bs) ↔
      (l.length % 2 = 0 ∧ ∀ c ∈ l, (fromHexChar c).isSome = true) := by
  induction l using hexDecode.induct with
  | case1 => simp [hexDecode]
  | case2 p h => simp [hexDecode, h]
  | case3 p x h => simp [hexDecode, h]
  | case4 p q rest h => simp [hexDecode, h]
  | case5 p q rest a ha hb => simp [hexDecode, ha, hb]
  | case6 p q rest a ha b hb e he ih =>
    have hno : ¬ (rest.length % 2 = 0 ∧ ∀ c ∈ rest, (fromHexChar c).isSome = true) := by
      intro hv
      obtain ⟨bs, hbs⟩ := ih.mpr hv
      rw [he] at hbs
      cases hbs
    constructor
    · rintro ⟨bs, h⟩
      simp [hexDecode, ha, hb, he] at h
    · rintro ⟨hlen, hall⟩
      exfalso
      apply hno
      refine ⟨?_, fun c hc => hall c (by simp [hc])⟩
      simp only [List.length_cons] at hlen
      omega
  | case7 p q rest a ha b hb bs hbs ih =>
    obtain ⟨hlen, hall⟩ := ih.mp ⟨bs, hbs⟩
    constructor
    · intro _
      refine ⟨?_, ?_⟩
      · simp only [List.length_cons]
        omega
      · intro c hc
        simp only [List.mem_cons] at hc
        rcases hc with rfl | rfl | hc
        · simp [ha]
        · simp [hb]
        · exact hall c hc
    · intro _
      exact ⟨(a * 16 + b) :: bs, by simp [hexDecode, ha, hb, hbs]⟩

theorem hexDecodeString_of_validHex {s : String} (h : validHex s) :
    ∃ bs, hexDecodeString s = .ok bs :=
  (hexDecode_ok_iff s.toList).mpr h

theorem hexDecodeString_of_not_validHex {s : String} (h : ¬ validHex s) :
    ∃ e, hexDecodeString s = .error e := by
  cases hd : hexDecodeString s with
  | error e => exact ⟨e, rfl⟩
  | ok bs => exact absurd ((hexDecode_ok_iff s.toList).mp ⟨bs, hd⟩) h

theorem zip_map_fst_snd {α β : Type} (l : List (α × β)) :
    List.zip (l.map Prod.fst) (l.map Prod.snd) = l := by
  induction l with
  | nil => rfl
  | cons a l ih => simp [ih]

theorem length_filterMap_eq {α β : Type} (f : α → Option β) (l : List α) :
    (l.filterMap f).length = (l.filter (fun a => (f a).isSome)).length := by
  induction l with
  | nil => rfl
  | cons a l ih =>
    cases h : f a with
    | none => simp [List.filterMap_cons, List.filter_cons, h, ih]
    | some b => simp [List.filterMap_cons, List.filter_cons, h, ih]

theorem storedPair_eq_some {suite : Suite G1 G2} {s : State G2} {blockHeight : Nat}
    {v : ValidatorSet} {p : ExtractedKey G2 × Commitment G1}
    (h : storedPair suite s blockHeight v = some p) :
    ∃ r, GetKeyShare s v.Validator blockHeight = some r ∧
      parseKeyShareCommitment suite r.KeyShare r.Commitment (toUint32 r.KeyShareIndex)
        = .ok p := by
  unfold storedPair at h
  cases hg : GetKeyShare s v.Validator blockHeight with
  | none => simp [hg] at h
  | some r =>
    refine ⟨r, rfl, ?_⟩
    cases hp : parseKeyShareCommitment suite r.KeyShare r.Commitment
        (toUint32 r.KeyShareIndex) with
    | error err => simp [hg, hp, Except.toOption] at h
    | ok q =>
      simp [hg, hp, Except.toOption] at h
      rw [h]

theorem storedPair_of_ok {suite : Suite G1 G2} {s : State G2} {blockHeight : Nat}
    {v : ValidatorSet} {r : KeyShare} {p : ExtractedKey G2 × Commitment G1}
    (hg : GetKeyShare s v.Validator blockHeight = some r)
    (hp : parseKeyShareCommitment suite r.KeyShare r.Commitment (toUint32 r.KeyShareIndex)
      = .ok p) :
    storedPair suite s blockHeight v = some p := by
  unfold storedPair
  simp [hg, hp, Except.toOption]

theorem storedError_of_error {suite : Suite G1 G2} {s : State G2} {blockHeight : Nat}
    {v : ValidatorSet} {r : KeyShare} {err : Err}
    (hg : GetKeyShare s v.Validator blockHeight = some r)
    (hp : parseKeyShareCommitment suite r.KeyShare r.Commitment (toUint32 r.KeyShareIndex)
      = .error err) :
    storedError suite s blockHeight v = some err := by
  unfold storedError
  simp [hg, hp]

theorem getElem_pairs {α β : Type} (P : α → β → Prop) (a : α) (b : β) (l : List (α × β))
    (h0 : P a b) (hl : ∀ p ∈ l, P p.1 p.2) (xs : List α) (ys : List β)
    (hx : xs = a :: l.map Prod.fst) (hy : ys = b :: l.map Prod.snd)
    (i : Nat) (hi : i < xs.length) (hj : i < ys.length) : P xs[i] ys[i] := by
  subst hx
  subst hy
  cases i with
  | zero => exact h0
  | succ n =>
    simp only [List.getElem_cons_succ, List.getElem_map]
    have hn : n < l.length := by simpa using hi
    exact hl l[n] (List.getElem_mem hn)

end Lemmas

/-! ## The claims -/

section Claims

variable {G1 G2 : Type}

/-- C1: for every state and every message whose Creator is not in the validator
set, SendKeyshare fails with ErrValidatorNotRegistered (wrapping the creator)
and returns the state it was given: no key share record is written or changed,
no event is emitted, nothing is logged. -/
theorem SendKeyshare_not_registered (suite : Suite G1 G2) (s : State G2) (ctx : Context)
    (msg : MsgSendKeyshare) (hnot : ∀ v ∈ s.validatorSet, v.Validator ≠ msg.Creator) :
    SendKeyshare suite s ctx msg = (.error (.ErrValidatorNotRegistered msg.Creator), s) :=
  SendKeyshare_unregistered suite s ctx msg (GetValidatorSet_eq_none hnot)

/-- Witness of C1: the unregistered address B of the tests, against the state
with the single validator val1. -/
theorem SendKeyshare_not_registered_witness :
    (∀ v ∈ st0.validatorSet, v.Validator ≠ msgUnregistered.Creator) ∧
      SendKeyshare testSuite st0 ctx0 msgUnregistered
        = (.error (.ErrValidatorNotRegistered "B"), st0) :=
  ⟨by decide, SendKeyshare_not_registered testSuite st0 ctx0 msgUnregistered (by decide)⟩

/-- C2: for every state and every message of a registered validator whose own
share fails parseKeyShareCommitment with an error, SendKeyshare returns that
error and the state it was given (the Share Store is unchanged); and when the
share and the commitment decode to points, the suite can hash to G2 and
VerifyShare rejects the pair, the error is ErrInvalidShare. -/
theorem SendKeyshare_own_share_rejected (suite : Suite G1 G2) (s : State G2) (ctx : Context)
    (msg : MsgSendKeyshare) (hreg : ∃ v ∈ s.validatorSet, v.Validator = msg.Creator) :
    (∀ err, parseKeyShareCommitment suite msg.Message msg.Commitment
        (toUint32 msg.KeyShareIndex) = .error err →
      SendKeyshare suite s ctx msg = (.error err, s)) ∧
    (∀ byteKey sharePoint byteCommitment commitmentPoint hash,
      hexDecodeString msg.Message = .ok byteKey →
      suite.unmarshalG2 byteKey = .ok sharePoint →
      hexDecodeString msg.Commitment = .ok byteCommitment →
      suite.unmarshalG1 byteCommitment = .ok commitmentPoint →
      suite.hashG2 = some hash →
      suite.VerifyShare { Sp := commitmentPoint, Index := toUint32 msg.KeyShareIndex }
        { Sk := sharePoint, Index := toUint32 msg.KeyShareIndex } (hash suite.IBEId) = false →
      SendKeyshare suite s ctx msg = (.error .ErrInvalidShare, s)) := by
  obtain ⟨v, hv⟩ := GetValidatorSet_isSome hreg
  refine ⟨fun err hp => SendKeyshare_rejected suite s ctx msg hv hp, ?_⟩
  intro byteKey sharePoint byteCommitment commitmentPoint hash h1 h2 h3 h4 h5 h6
  apply SendKeyshare_rejected suite s ctx msg hv
  unfold parseKeyShareCommitment
  simp [h1, h2, h3, h4, h5, h6]

set_option maxRecDepth 100000 in
/-- Witness of C2: val1 submits a share that decodes but does not match its
commitment; the call fails with ErrInvalidShare and the state is unchanged. -/
theorem SendKeyshare_own_share_rejected_witness :
    (∃ v ∈ st0.validatorSet, v.Validator = msgMismatch.Creator) ∧
      parseKeyShareCommitment testSuite msgMismatch.Message msgMismatch.Commitment
        (toUint32 msgMismatch.KeyShareIndex) = .error .ErrInvalidShare ∧
      SendKeyshare testSuite st0 ctx0 msgMismatch = (.error .ErrInvalidShare, st0) :=
  ⟨by decide, by decide,
    (SendKeyshare_own_share_rejected testSuite st0 ctx0 msgMismatch (by decide)).1 _ (by decide)⟩

/-- C3, as stated, fails: with a share that is valid hex but not the encoding
of a G2 point and a commitment that is not valid hex, parseKeyShareCommitment
fails with the unmarshalling error of the share, which is not of the
malformed-encoding kind. -/
theorem parseKeyShareCommitment_malformed_counterexample :
    validHex "00" ∧ ¬ validHex "zz" ∧
      parseKeyShareCommitment testSuite "00" "zz" 0
        = .error (.ErrUnmarshallingKeyShare "invalid G2 encoding") ∧
      (Err.ErrUnmarshallingKeyShare "invalid G2 encoding").isMalformedEncoding = false := by
  decide

/-- C3, amended: a share that is not valid hex gives ErrDecodingKeyShare; a
share that is valid hex but does not unmarshal to a G2 point gives
ErrUnmarshallingKeyShare whatever the commitment is; a share that decodes to a
G2 point with a commitment that is not valid hex gives ErrDecodingCommitment.
So whenever either string is not valid hex the call fails, with one of these
three errors. -/
theorem parseKeyShareCommitment_invalid_hex (suite : Suite G1 G2)
    (keyShareHex commitmentHex : String) (index : Nat) :
    (¬ validHex keyShareHex →
      ∃ cause, parseKeyShareCommitment suite keyShareHex commitmentHex index
        = .error (.ErrDecodingKeyShare cause)) ∧
    (∀ byteKey cause, hexDecodeString keyShareHex = .ok byteKey →
      suite.unmarshalG2 byteKey = .error cause →
      parseKeyShareCommitment suite keyShareHex commitmentHex index
        = .error (.ErrUnmarshallingKeyShare cause)) ∧
    (∀ byteKey sharePoint, hexDecodeString keyShareHex = .ok byteKey →
      suite.unmarshalG2 byteKey = .ok sharePoint → ¬ validHex commitmentHex →
      ∃ cause, parseKeyShareCommitment suite keyShareHex commitmentHex index
        = .error (.ErrDecodingCommitment cause)) ∧
    (¬ validHex keyShareHex ∨ ¬ validHex commitmentHex →
      (∃ cause, parseKeyShareCommitment suite keyShareHex commitmentHex index
        = .error (.ErrDecodingKeyShare cause)) ∨
      (∃ cause, parseKeyShareCommitment suite keyShareHex commitmentHex index
        = .error (.ErrUnmarshallingKeyShare cause)) ∨
      (∃ cause, parseKeyShareCommitment suite keyShareHex commitmentHex index
        = .error (.ErrDecodingCommitment cause))) := by
  have hA : ¬ validHex keyShareHex →
      ∃ cause, parseKeyShareCommitment suite keyShareHex commitmentHex index
        = .error (.ErrDecodingKeyShare cause) := by
    intro h
    obtain ⟨e, he⟩ := hexDecodeString_of_not_validHex h
    exact ⟨e, by unfold parseKeyShareCommitment; simp [he]⟩
  have hB : ∀ byteKey cause, hexDecodeString keyShareHex = .ok byteKey →
      suite.unmarshalG2 byteKey = .error cause →
      parseKeyShareCommitment suite keyShareHex commitmentHex index
        = .error (.ErrUnmarshallingKeyShare cause) := by
    intro byteKey cause h1 h2
    unfold parseKeyShareCommitment
    simp [h1, h2]
  have hC : ∀ byteKey sharePoint, hexDecodeString keyShareHex = .ok byteKey →
      suite.unmarshalG2 byteKey = .ok sharePoint → ¬ validHex commitmentHex →
      ∃ cause, parseKeyShareCommitment suite keyShareHex commitmentHex index
        = .error (.ErrDecodingCommitment cause) := by
    intro byteKey sharePoint h1 h2 h3
    obtain ⟨e, he⟩ := hexDecodeString_of_not_validHex h3
    exact ⟨e, by unfold parseKeyShareCommitment; simp [h1, h2, he]⟩
  refine ⟨hA, hB, hC, ?_⟩
  intro hor
  by_cases hk : validHex keyShareHex
  · obtain ⟨byteKey, h1⟩ := hexDecodeString_of_validHex hk
    have hc : ¬ validHex commitmentHex := hor.resolve_left (fun h => h hk)
    cases h2 : suite.unmarshalG2 byteKey with
    | error cause => exact Or.inr (Or.inl ⟨cause, hB byteKey cause h1 h2⟩)
    | ok sharePoint => exact Or.inr (Or.inr (hC byteKey sharePoint h1 h2 hc))
  · exact Or.inl (hA hk)

set_option maxRecDepth 100000 in
/-- Witness of the amended C3: a share that is not hex, and a valid share with
a commitment that is not hex. -/
theorem parseKeyShareCommitment_invalid_hex_witness :
    (¬ validHex "zz" ∧
      ∃ cause, parseKeyShareCommitment testSuite "zz" "11" 1
        = .error (.ErrDecodingKeyShare cause)) ∧
    (¬ validHex "1" ∧
      ∃ cause, parseKeyShareCommitment testSuite (shareHex '1') "1" 1
        = .error (.ErrDecodingCommitment cause)) :=
  ⟨⟨by decide, (parseKeyShareCommitment_invalid_hex testSuite "zz" "11" 1).1 (by decide)⟩,
   ⟨by decide,
    (parseKeyShareCommitment_invalid_hex testSuite (shareHex '1') "1" 1).2.2.1
      (List.replicate 96 17) (List.replicate 96 17) (by decide) (by decide) (by decide)⟩⟩

/-- C4: SendKeyshare returns success if and only if the Creator is in the
validator set and the submitter's own (Message, Commitment, KeyShareIndex)
passes parseKeyShareCommitment; and whether it succeeds is the same for every
target block height, every content of the Share Store (the records of the
other validators included), every context and every aggregator. -/
theorem SendKeyshare_success_iff (suite : Suite G1 G2) (s : State G2) (ctx : Context)
    (msg : MsgSendKeyshare) :
    ((∃ resp, (SendKeyshare suite s ctx msg).1 = .ok resp) ↔
      ((∃ v ∈ s.validatorSet, v.Validator = msg.Creator) ∧
        ∃ k c, parseKeyShareCommitment suite msg.Message msg.Commitment
          (toUint32 msg.KeyShareIndex) = .ok (k, c))) ∧
    (∀ (aggregate : List (ExtractedKey G2) → List (Commitment G1) → String → G2 × List Nat)
        (blockHeight : Nat) (keyShares : List KeyShare) (ctx' : Context),
      (∃ resp, (SendKeyshare { suite with AggregateSK := aggregate }
          { s with keyShares := keyShares } ctx'
          { msg with BlockHeight := blockHeight }).1 = .ok resp) ↔
        (∃ resp, (SendKeyshare suite s ctx msg).1 = .ok resp)) := by
  refine ⟨SendKeyshare_ok_iff suite s ctx msg, ?_⟩
  intro aggregate blockHeight keyShares ctx'
  rw [SendKeyshare_ok_iff, SendKeyshare_ok_iff]
  rfl

/-- C5: after a successful SendKeyshare(msg), the lookup of (msg.Creator,
msg.BlockHeight) finds the record built from the message, with the received
time and height of the context; it is the only record stored under that key;
and under every other (validator, height) key the stored records and the
lookup are what they were before the call. -/
theorem SendKeyshare_stores_share (suite : Suite G1 G2) (s : State G2) (ctx : Context)
    (msg : MsgSendKeyshare) (resp : MsgSendKeyshareResponse)
    (hok : (SendKeyshare suite s ctx msg).1 = .ok resp) :
    GetKeyShare (SendKeyshare suite s ctx msg).2 msg.Creator msg.BlockHeight
      = some { Validator := msg.Creator
               BlockHeight := msg.BlockHeight
               KeyShare := msg.Message
               Commitment := msg.Commitment
               KeyShareIndex := msg.KeyShareIndex
               ReceivedTimestamp := toUint64 ctx.BlockTimeUnix
               ReceivedBlockHeight := toUint64 ctx.BlockHeight } ∧
    ((SendKeyshare suite s ctx msg).2.keyShares.filter
        (keyShareAt msg.Creator msg.BlockHeight)).length = 1 ∧
    (∀ validator blockHeight, ¬ (validator = msg.Creator ∧ blockHeight = msg.BlockHeight) →
      (SendKeyshare suite s ctx msg).2.keyShares.filter (keyShareAt validator blockHeight)
        = s.keyShares.filter (keyShareAt validator blockHeight) ∧
      GetKeyShare (SendKeyshare suite s ctx msg).2 validator blockHeight
        = GetKeyShare s validator blockHeight) := by
  obtain ⟨v, k, c, hv, hp⟩ := SendKeyshare_ok_inv suite s ctx msg hok
  rw [SendKeyshare_accepted suite s ctx msg hv hp]
  refine ⟨?_, ?_, ?_⟩
  · unfold GetKeyShare
    rw [find?_eq_head?_filter]
    simp only [filter_keyShareAt_set]
    rfl
  · simp only [filter_keyShareAt_set]
    rfl
  · intro validator blockHeight hne
    have hf := filter_keyShareAt_other s.keyShares ctx msg hne
    refine ⟨hf, ?_⟩
    unfold GetKeyShare
    rw [find?_eq_head?_filter, find?_eq_head?_filter]
    simp only [hf]

set_option maxRecDepth 100000 in
/-- Witness of C5: val1 submits msgA for height 1 while the store holds
records of val2 and val3. -/
theorem SendKeyshare_stores_share_witness :
    (SendKeyshare testSuite st3 ctx0 msgA).1 = .ok (newResponse ctx0 msgA) ∧
      GetKeyShare (SendKeyshare testSuite st3 ctx0 msgA).2 msgA.Creator msgA.BlockHeight
        = some { Validator := msgA.Creator
                 BlockHeight := msgA.BlockHeight
                 KeyShare := msgA.Message
                 Commitment := msgA.Commitment
                 KeyShareIndex := msgA.KeyShareIndex
                 ReceivedTimestamp := toUint64 ctx0.BlockTimeUnix
                 ReceivedBlockHeight := toUint64 ctx0.BlockHeight } :=
  ⟨by decide,
    (SendKeyshare_stores_share testSuite st3 ctx0 msgA (newResponse ctx0 msgA) (by decide)).1⟩

set_option maxRecDepth 100000 in
/-- C7 (defect of the code): val1 submits msgA twice in a row. One record is
stored, the same after both calls, but the aggregator's input changes: from
empty stores the first call hands over the fresh share alone and the second
hands it over twice; when val1 had stored an older share, the first call hands
over the fresh and the older share, the second the fresh share twice. -/
theorem SendKeyshare_twice_changes_aggregator_input :
    parseKeyShareCommitment testSuite msgA.Message msgA.Commitment
        (toUint32 msgA.KeyShareIndex) = .ok (keyA, commitmentA) ∧
      stOnce.keyShares = [newKeyShare ctx0 msgA] ∧
      (SendKeyshare testSuite stOnce ctx0 msgA).2.keyShares = [newKeyShare ctx0 msgA] ∧
      (gatherShares testSuite st0 1 keyA commitmentA).listOfShares = [keyA] ∧
      (gatherShares testSuite stOnce 1 keyA commitmentA).listOfShares = [keyA, keyA] ∧
      (gatherShares testSuite stPrior 1 keyA commitmentA).listOfShares = [keyA, keyOld] ∧
      (gatherShares testSuite (SendKeyshare testSuite stPrior ctx0 msgA).2 1 keyA
          commitmentA).listOfShares = [keyA, keyA] ∧
      keyOld ∉ [keyA, keyA] := by
  decide

set_option maxRecDepth 100000 in
/-- C8, as stated, fails: the store holds, for height 1, a record that decodes
and verifies but is kept under val9, which is not in the validator set. The
submission of val1 is accepted, yet the aggregator is handed the fresh share
alone: the stored record that passes is not included. -/
theorem SendKeyshare_stray_record_counterexample :
    (∃ r ∈ stStray.keyShares, r.BlockHeight = msgA.BlockHeight ∧
        GetKeyShare stStray r.Validator r.BlockHeight = some r ∧
        parseKeyShareCommitment testSuite r.KeyShare r.Commitment (toUint32 r.KeyShareIndex)
          = .ok (keyB, commitmentB)) ∧
      parseKeyShareCommitment testSuite msgA.Message msgA.Commitment
        (toUint32 msgA.KeyShareIndex) = .ok (keyA, commitmentA) ∧
      (SendKeyshare testSuite stStray ctx0 msgA).1 = .ok (newResponse ctx0 msgA) ∧
      (gatherShares testSuite stStray msgA.BlockHeight keyA commitmentA).listOfShares
        = [keyA] ∧
      (gatherShares testSuite stStray msgA.BlockHeight keyA commitmentA).listOfCommitment
        = [commitmentA] ∧
      (SendKeyshare testSuite stStray ctx0 msgA).2.logs
        = [LogLine.AggregatedDecryptionKey
            (testSuite.AggregateSK [keyA] [commitmentA] testSuite.IBEId).1] := by
  decide

/-- C8, amended: when a registered validator's own share parses, the submission
succeeds whatever the stored records are. The records are read per validator
of the validator set for the target height; the aggregator is called with the
submitted pair followed by exactly the pairs of those records that pass
parseKeyShareCommitment, in the order of the validator set: a record that
passes is in the input, a record that fails is logged and left out, every
stored record of the height that belongs to a validator of the set and passes
is in the input after the submitted pair, and the input has one entry more
than there are validators with a passing record. -/
theorem SendKeyshare_tolerates_bad_records (suite : Suite G1 G2) (s : State G2) (ctx : Context)
    (msg : MsgSendKeyshare) (hreg : ∃ v ∈ s.validatorSet, v.Validator = msg.Creator)
    (k : ExtractedKey G2) (c : Commitment G1)
    (hp : parseKeyShareCommitment suite msg.Message msg.Commitment
      (toUint32 msg.KeyShareIndex) = .ok (k, c)) :
    (SendKeyshare suite s ctx msg).1 = .ok (newResponse ctx msg) ∧
    (SendKeyshare suite s ctx msg).2.logs =
      s.logs ++ (s.validatorSet.filterMap (storedError suite s msg.BlockHeight)).map
          LogLine.Error ++
        [LogLine.AggregatedDecryptionKey
          (suite.AggregateSK (gatherShares suite s msg.BlockHeight k c).listOfShares
            (gatherShares suite s msg.BlockHeight k c).listOfCommitment suite.IBEId).1] ∧
    List.zip (gatherShares suite s msg.BlockHeight k c).listOfShares
        (gatherShares suite s msg.BlockHeight k c).listOfCommitment
      = (k, c) :: s.validatorSet.filterMap (storedPair suite s msg.BlockHeight) ∧
    (∀ v ∈ s.validatorSet, ∀ r, GetKeyShare s v.Validator msg.BlockHeight = some r →
      (∀ p, parseKeyShareCommitment suite r.KeyShare r.Commitment (toUint32 r.KeyShareIndex)
          = .ok p →
        p ∈ List.zip (gatherShares suite s msg.BlockHeight k c).listOfShares
          (gatherShares suite s msg.BlockHeight k c).listOfCommitment) ∧
      (∀ err, parseKeyShareCommitment suite r.KeyShare r.Commitment
          (toUint32 r.KeyShareIndex) = .error err →
        LogLine.Error err ∈ (SendKeyshare suite s ctx msg).2.logs)) ∧
    (∀ p ∈ (List.zip (gatherShares suite s msg.BlockHeight k c).listOfShares
        (gatherShares suite s msg.BlockHeight k c).listOfCommitment).tail,
      ∃ v ∈ s.validatorSet, ∃ r, GetKeyShare s v.Validator msg.BlockHeight = some r ∧
        parseKeyShareCommitment suite r.KeyShare r.Commitment (toUint32 r.KeyShareIndex)
          = .ok p) ∧
    (∀ r ∈ s.keyShares, r.BlockHeight = msg.BlockHeight →
      (∃ v ∈ s.validatorSet, v.Validator = r.Validator) →
      GetKeyShare s r.Validator r.BlockHeight = some r →
      ∀ p, parseKeyShareCommitment suite r.KeyShare r.Commitment (toUint32 r.KeyShareIndex)
          = .ok p →
        p ∈ (List.zip (gatherShares suite s msg.BlockHeight k c).listOfShares
          (gatherShares suite s msg.BlockHeight k c).listOfCommitment).tail) ∧
    (gatherShares suite s msg.BlockHeight k c).listOfShares.length
      = 1 + (s.validatorSet.filter
          (fun v => (storedPair suite s msg.BlockHeight v).isSome)).length := by
  obtain ⟨v, hv⟩ := GetValidatorSet_isSome hreg
  obtain ⟨h1, h2, h3⟩ := gatherShares_eq suite s msg.BlockHeight k c
  have hzip : List.zip (gatherShares suite s msg.BlockHeight k c).listOfShares
        (gatherShares suite s msg.BlockHeight k c).listOfCommitment
      = (k, c) :: s.validatorSet.filterMap (storedPair suite s msg.BlockHeight) := by
    rw [h1, h2, List.zip_cons_cons, zip_map_fst_snd]
  have hlogs : (SendKeyshare suite s ctx msg).2.logs =
      s.logs ++ (s.validatorSet.filterMap (storedError suite s msg.BlockHeight)).map
          LogLine.Error ++
        [LogLine.AggregatedDecryptionKey
          (suite.AggregateSK (gatherShares suite s msg.BlockHeight k c).listOfShares
            (gatherShares suite s msg.BlockHeight k c).listOfCommitment suite.IBEId).1] := by
    rw [SendKeyshare_accepted suite s ctx msg hv hp]
    simp only [h3]
  refine ⟨by rw [SendKeyshare_accepted suite s ctx msg hv hp], hlogs, hzip, ?_, ?_, ?_, ?_⟩
  · intro w hw r hg
    constructor
    · intro p hpr
      rw [hzip]
      apply List.mem_cons_of_mem
      rw [List.mem_filterMap]
      exact ⟨w, hw, storedPair_of_ok hg hpr⟩
    · intro err hpr
      rw [hlogs]
      apply List.mem_append_left
      apply List.mem_append_right
      rw [List.mem_map]
      refine ⟨err, ?_, rfl⟩
      rw [List.mem_filterMap]
      exact ⟨w, hw, storedError_of_error hg hpr⟩
  · intro p hmem
    rw [hzip, List.tail_cons, List.mem_filterMap] at hmem
    obtain ⟨w, hw, hsp⟩ := hmem
    obtain ⟨r, hg, hpr⟩ := storedPair_eq_some hsp
    exact ⟨w, hw, r, hg, hpr⟩
  · intro r _ hh hval hg p hpr
    obtain ⟨w, hw, hwr⟩ := hval
    rw [hzip, List.tail_cons, List.mem_filterMap]
    refine ⟨w, hw, storedPair_of_ok ?_ hpr⟩
    rw [hwr, ← hh]
    exact hg
  · rw [h1, List.length_cons, List.length_map, length_filterMap_eq]
    omega

set_option maxRecDepth 100000 in
/-- Witness of the amended C8: val1 submits msgA while, for the same height,
the store holds a valid record of val2, a record of val3 that is not hex and a
record of val4 that decodes but fails verification: the submission succeeds,
both failures are logged, and the aggregator gets two entries, the fresh share
and the share of val2. -/
theorem SendKeyshare_tolerates_bad_records_witness :
    (∃ v ∈ st4.validatorSet, v.Validator = msgA.Creator) ∧
      parseKeyShareCommitment testSuite msgA.Message msgA.Commitment
        (toUint32 msgA.KeyShareIndex) = .ok (keyA, commitmentA) ∧
      (SendKeyshare testSuite st4 ctx0 msgA).1 = .ok (newResponse ctx0 msgA) ∧
      (SendKeyshare testSuite st4 ctx0 msgA).2.logs
        = [LogLine.Error (.ErrDecodingKeyShare (.InvalidByteError 'z')),
           LogLine.Error .ErrInvalidShare,
           LogLine.AggregatedDecryptionKey
            (testSuite.AggregateSK [keyA, keyB] [commitmentA, commitmentB] testSuite.IBEId).1] ∧
      List.zip (gatherShares testSuite st4 msgA.BlockHeight keyA commitmentA).listOfShares
          (gatherShares testSuite st4 msgA.BlockHeight keyA commitmentA).listOfCommitment
        = [(keyA, commitmentA), (keyB, commitmentB)] :=
  ⟨by decide, by decide,
    (SendKeyshare_tolerates_bad_records testSuite st4 ctx0 msgA (by decide) keyA commitmentA
      (by decide)).1,
    ((SendKeyshare_tolerates_bad_records testSuite st4 ctx0 msgA (by decide) keyA commitmentA
      (by decide)).2.1).trans (by decide),
    ((SendKeyshare_tolerates_bad_records testSuite st4 ctx0 msgA (by decide) keyA commitmentA
      (by decide)).2.2.1).trans (by decide)⟩

/-- C9: whenever SendKeyshare gets past the registration check and the parse
of the submitted share, the guard before AggregateSK holds and the call is
made (its key is the last log line); the share list and the commitment list
handed over have the same length, at least 1, and at every position the share
and the commitment carry the same index and that pair passed VerifyShare
against the hash of IBEId. -/
theorem AggregateSK_input_invariant (suite : Suite G1 G2) (s : State G2) (ctx : Context)
    (msg : MsgSendKeyshare) (hreg : ∃ v ∈ s.validatorSet, v.Validator = msg.Creator)
    (k : ExtractedKey G2) (c : Commitment G1)
    (hp : parseKeyShareCommitment suite msg.Message msg.Commitment
      (toUint32 msg.KeyShareIndex) = .ok (k, c)) :
    (SendKeyshare suite s ctx msg).2.logs =
      (gatherShares suite s msg.BlockHeight k c).logs ++
        [LogLine.AggregatedDecryptionKey
          (suite.AggregateSK (gatherShares suite s msg.BlockHeight k c).listOfShares
            (gatherShares suite s msg.BlockHeight k c).listOfCommitment suite.IBEId).1] ∧
    (gatherShares suite s msg.BlockHeight k c).listOfShares.length
      = (gatherShares suite s msg.BlockHeight k c).listOfCommitment.length ∧
    1 ≤ (gatherShares suite s msg.BlockHeight k c).listOfShares.length ∧
    ((gatherShares suite s msg.BlockHeight k c).listOfCommitment.length > 0 ∧
      (gatherShares suite s msg.BlockHeight k c).listOfShares.length > 0) ∧
    ∀ (i : Nat) (hi : i < (gatherShares suite s msg.BlockHeight k c).listOfShares.length)
      (hj : i < (gatherShares suite s msg.BlockHeight k c).listOfCommitment.length),
      ((gatherShares suite s msg.BlockHeight k c).listOfShares[i]).Index
        = ((gatherShares suite s msg.BlockHeight k c).listOfCommitment[i]).Index ∧
      ∃ hash, suite.hashG2 = some hash ∧
        suite.VerifyShare ((gatherShares suite s msg.BlockHeight k c).listOfCommitment[i])
          ((gatherShares suite s msg.BlockHeight k c).listOfShares[i])
          (hash suite.IBEId) = true := by
  obtain ⟨v, hv⟩ := GetValidatorSet_isSome hreg
  obtain ⟨h1, h2, _⟩ := gatherShares_eq suite s msg.BlockHeight k c
  have hlen : (gatherShares suite s msg.BlockHeight k c).listOfShares.length
      = (gatherShares suite s msg.BlockHeight k c).listOfCommitment.length := by
    rw [h1, h2]
    simp
  have hpos : 1 ≤ (gatherShares suite s msg.BlockHeight k c).listOfShares.length := by
    rw [h1]
    simp
  refine ⟨by rw [SendKeyshare_accepted suite s ctx msg hv hp], hlen, hpos, ⟨by omega, by omega⟩, ?_⟩
  intro i hi hj
  apply getElem_pairs
    (fun (x : ExtractedKey G2) (y : Commitment G1) => x.Index = y.Index ∧
      ∃ hash, suite.hashG2 = some hash ∧ suite.VerifyShare y x (hash suite.IBEId) = true)
    k c (s.validatorSet.filterMap (storedPair suite s msg.BlockHeight)) ?_ ?_ _ _ h1 h2 i hi hj
  · obtain ⟨hk, hc, hash, hh, hver⟩ := parseKeyShareCommitment_ok_inv suite _ _ _ hp
    exact ⟨hk.trans hc.symm, hash, hh, hver⟩
  · intro p hmem
    rw [List.mem_filterMap] at hmem
    obtain ⟨w, _, hsp⟩ := hmem
    obtain ⟨r, _, hpr⟩ := storedPair_eq_some hsp
    obtain ⟨hk, hc, hash, hh, hver⟩ := parseKeyShareCommitment_ok_inv suite _ _ _ hpr
    exact ⟨hk.trans hc.symm, hash, hh, hver⟩

set_option maxRecDepth 100000 in
/-- Witness of C9: val1 submits msgA with the records of val2 and val3 in the
store; the two lists handed to the aggregator have length 2. -/
theorem AggregateSK_input_invariant_witness :
    (∃ v ∈ st3.validatorSet, v.Validator = msgA.Creator) ∧
      parseKeyShareCommitment testSuite msgA.Message msgA.Commitment
        (toUint32 msgA.KeyShareIndex) = .ok (keyA, commitmentA) ∧
      (gatherShares testSuite st3 msgA.BlockHeight keyA commitmentA).listOfShares.length
        = (gatherShares testSuite st3 msgA.BlockHeight keyA commitmentA).listOfCommitment.length ∧
      1 ≤ (gatherShares testSuite st3 msgA.BlockHeight keyA commitmentA).listOfShares.length :=
  ⟨by decide, by decide,
    (AggregateSK_input_invariant testSuite st3 ctx0 msgA (by decide) keyA commitmentA
      (by decide)).2.1,
    (AggregateSK_input_invariant testSuite st3 ctx0 msgA (by decide) keyA commitmentA
      (by decide)).2.2.1⟩

set_option maxRecDepth 100000 in
/-- C10 (defect of the code): val1 resubmits msgA when its record for the same
height is already stored. The loop over the validator set reads val1's own
record as well, so val1 contributes two entries to the aggregator's input and
the indices handed over, 1 and 1, are not pairwise distinct. -/
theorem SendKeyshare_collects_own_record :
    (∃ v ∈ stOnce.validatorSet, v.Validator = msgA.Creator) ∧
      GetKeyShare stOnce msgA.Creator msgA.BlockHeight = some (newKeyShare ctx0 msgA) ∧
      parseKeyShareCommitment testSuite msgA.Message msgA.Commitment
        (toUint32 msgA.KeyShareIndex) = .ok (keyA, commitmentA) ∧
      (SendKeyshare testSuite stOnce ctx0 msgA).1 = .ok (newResponse ctx0 msgA) ∧
      (gatherShares testSuite stOnce msgA.BlockHeight keyA commitmentA).listOfShares
        = [keyA, keyA] ∧
      (gatherShares testSuite stOnce msgA.BlockHeight keyA commitmentA).listOfShares.map
        (fun x => x.Index) = [1, 1] ∧
      ¬ ((gatherShares testSuite stOnce msgA.BlockHeight keyA commitmentA).listOfShares.map
        (fun x => x.Index)).Nodup := by
  decide

end Claims

end Fairyring
